import Mathlib

/-!
Shallow embedding of the INI temporal-mean-rate spiking simulator
(`snntoolbox/simulation/backends/inisim/temporal_mean_rate_tensorflow.py`
and `snntoolbox/simulation/target_simulators/INI_temporal_mean_rate_target_sim.py`,
plus the legacy `snntoolbox/target_simulators/INI_target_sim.py`).

Tensors are modelled element-wise: each neuron carries scalar rational state,
and batched tensors become lists of rationals.  Machine floats are modelled by
`ℚ`; the experimental module-level flags `clamp_var` and `v_clip` are `False`
in the source and are therefore omitted from the embedded control flow.
-/

set_option linter.unusedVariables false

namespace SNNToolbox

/-- Reset policy selected by the config key `cell/reset`. -/
inductive ResetKind where
  | subtraction
  | toZero
  | modulo
deriving DecidableEq

/-- Per-layer configuration, from the config sections read in
`SpikeLayer.__init__` and friends. -/
structure CellConfig where
  dt : ℚ
  duration : ℚ
  tau_refrac : ℚ
  vThreshBase : ℚ
  leak : Bool
  payloads : Bool
  online_normalization : Bool
  reset : ResetKind
deriving DecidableEq

/-- Scalar per-neuron state, mirroring the `tf.Variable`s of `SpikeLayer`
(`mem`, `mem_acc`, `mem_input`, `refrac_until`, `time`, `v_thresh`,
`payloads`, `payloads_sum`, `spikecounts`, `max_spikerate`, `spiketrain`). -/
structure NState where
  mem : ℚ
  memAcc : ℚ
  memInput : ℚ
  refracUntil : ℚ
  time : ℚ
  vThresh : ℚ
  payload : ℚ
  payloadSum : ℚ
  spikecount : ℚ
  maxSpikerate : ℚ
  spiketrain : ℚ
deriving DecidableEq

/-- Floor modulo, the semantics of the tensorflow `%` used in
`set_reset_mem` for the modulo reset policy. -/
def qmod (a b : ℚ) : ℚ := a - b * (⌊a / b⌋ : ℚ)

/-- `SpikeLayer.get_new_mem` (scalar case, default flags): mask the impulse
during refraction, add it to `mem` and `mem_acc`, then apply the optional
leak term.  Returns the pair `(new_mem, new_mem_acc)`. -/
def get_new_mem (cfg : CellConfig) (st : NState) (impulse : ℚ) : ℚ × ℚ :=
  let maskedImpulse := if cfg.tau_refrac = 0 then impulse
    else if st.refracUntil > st.time then 0 else impulse
  let newMem := st.mem + maskedImpulse
  let newMemAcc := st.memAcc + maskedImpulse
  let newMem := if cfg.leak then
      (if newMem > 0 then newMem - 1/10 * cfg.dt else newMem)
    else newMem
  (newMem, newMemAcc)

/-- `SpikeLayer.linear_activation`: emit a spike of height `v_thresh`
wherever `mem ≥ v_thresh`. -/
def linear_activation (vThresh mem : ℚ) : ℚ :=
  if mem ≥ vThresh then vThresh else 0

/-- `SpikeLayer.set_reset_mem`, restricted to the non-softmax,
non-leakyrelu activation path: the membrane value kept after a spike,
per reset policy (payload mode forces a full reset to zero). -/
def set_reset_mem (cfg : CellConfig) (vThresh mem spike : ℚ) : ℚ :=
  match cfg.reset with
  | ResetKind.subtraction =>
      if cfg.payloads then (if spike ≠ 0 then 0 else mem)
      else
        let new := if spike > 0 then mem - vThresh else mem
        if spike < 0 then new + vThresh else new
  | ResetKind.modulo => if spike ≠ 0 then qmod mem vThresh else mem
  | ResetKind.toZero => if spike ≠ 0 then 0 else mem

/-- `SpikeLayer.update_payload`: at spiking positions, the new payload is
the residual minus the payload sum, and the payload sum is incremented by
the payload variable as it was before this update. -/
def update_payload (st : NState) (residual spike : ℚ) : ℚ × ℚ :=
  (if spike ≠ 0 then residual - st.payloadSum else st.payload,
   if spike ≠ 0 then st.payloadSum + st.payload else st.payloadSum)

/-- `SpikeLayer.update_neurons` (scalar case, linear activation path):
integrate, spike, reset, record the raw input, update refraction, payload,
online-normalization statistics and the spiketrain record.  Returns the
emitted spike together with the new state. -/
def update_neurons (cfg : CellConfig) (st : NState) (x impulse : ℚ) :
    ℚ × NState :=
  let newMem := (get_new_mem cfg st impulse).1
  let newMemAcc := (get_new_mem cfg st impulse).2
  let spike := linear_activation st.vThresh newMem
  let memAfter := set_reset_mem cfg st.vThresh newMem spike
  let refracAfter := if cfg.tau_refrac > 0 ∧ spike ≠ 0
    then st.time + cfg.tau_refrac else st.refracUntil
  let residual := if spike ≠ 0 then newMem - cfg.vThreshBase else newMem
  let payloadPair := if cfg.payloads then update_payload st residual spike
    else (st.payload, st.payloadSum)
  let spikecountAfter := if cfg.online_normalization
    then st.spikecount + (if spike ≠ 0 then 1 else 0) else st.spikecount
  let maxSpikerateAfter := if cfg.online_normalization
    then spikecountAfter * cfg.dt / st.time else st.maxSpikerate
  (spike,
   { st with
      mem := memAfter
      memAcc := newMemAcc
      memInput := x
      refracUntil := refracAfter
      payload := payloadPair.1
      payloadSum := payloadPair.2
      spikecount := spikecountAfter
      maxSpikerate := maxSpikerateAfter
      spiketrain := spike * st.time })

/-- `SpikeLayer.get_new_thresh`: the adaptive threshold assigned at the
start of each step under online normalization. -/
def get_new_thresh (base dt maxSpikerate : ℚ) : ℚ :=
  let thrMin := base / 100
  let thrMax := base
  let rLim := 1 / dt
  thrMin + (thrMax - thrMin) * maxSpikerate / rLim

/-- One simulation step of `SNN.simulate` for a single linear neuron driven
by a constant analog input `a`: `set_time((k+1)*dt)` followed by
`update_neurons` with impulse `a * dt` (the input scaling applied by
`simulate` on entry).  `k` is the zero-based step counter. -/
def stepConst (cfg : CellConfig) (a : ℚ) (st : NState) (k : ℕ) : ℚ × NState :=
  let st := { st with time := ((k : ℚ) + 1) * cfg.dt }
  update_neurons cfg st (a * cfg.dt) (a * cfg.dt)

/-- Run `T` steps of `stepConst` (step counters `0, 1, …, T-1` in order,
as in `for sim_step_int in range(num_timesteps)`), counting the steps on
which a nonzero spike was emitted. -/
def runConst (cfg : CellConfig) (a : ℚ) (st : NState) : ℕ → NState × ℕ
  | 0 => (st, 0)
  | T + 1 =>
      let prev := runConst cfg a st T
      let out := stepConst cfg a prev.1 T
      (out.2, prev.2 + (if out.1 = 0 then 0 else 1))

/-- The fresh per-neuron state produced by `reset_spikevars` when a reset
fires with `init_membrane_potential` in its default `zero` mode. -/
def initState (cfg : CellConfig) : NState :=
  { mem := 0
    memAcc := 0
    memInput := 0
    refracUntil := 0
    time := cfg.dt
    vThresh := cfg.vThreshBase
    payload := 0
    payloadSum := 0
    spikecount := 0
    maxSpikerate := 0
    spiketrain := 0 }

/-- Layer configuration for the deterministic rate-coding scenario:
`threshold = 1`, `dt = 1`, subtraction reset, linear activation, all
optional features off. -/
def rateCfg : CellConfig :=
  { dt := 1
    duration := 10
    tau_refrac := 0
    vThreshBase := 1
    leak := false
    payloads := false
    online_normalization := false
    reset := ResetKind.subtraction }

/-- Per-step output record of `SNN.simulate`
(`INI_temporal_mean_rate_target_sim.py` line 321): the slot written for one
output neuron at one step is the indicator `out_spikes > 0`. -/
def recordStep (outSpike : ℚ) : ℚ := if outSpike > 0 then 1 else 0

/-- Cumulative output of `SNN.simulate` for one output neuron after `k`
steps: `np.cumsum(output_b_l_t, 2)` evaluated at slot `k - 1`, where the
slots hold `recordStep` of the spikes of steps `1..k`. -/
def cumOutputAt (outs : List ℚ) (k : ℕ) : ℚ :=
  ((outs.take k).map recordStep).sum

/-- First-occurrence argmax over a list, the semantics of `np.argmax`
used for the classification readout. -/
def argmaxAux : List ℚ → ℕ → ℕ → ℚ → ℕ
  | [], _, bi, _ => bi
  | a :: as, i, bi, bv =>
      if a > bv then argmaxAux as (i + 1) i a else argmaxAux as (i + 1) bi bv

/-- `np.argmax` over the per-class cumulative spike sums. -/
def argmaxList : List ℚ → ℕ
  | [] => 0
  | a :: as => argmaxAux as 1 0 a

/-- Classification readout of `SNN.simulate` (lines 359-363) for one
sample: a sample whose per-class sums add up to zero is `undecided` and
mapped to the sentinel `-1`, otherwise the guess is the argmax. -/
def cleanGuess (sums : List ℚ) : ℤ :=
  if sums.sum = 0 then -1 else (argmaxList sums : ℤ)

/-- `tf.clip_by_value`. -/
def clipQ (x lo hi : ℚ) : ℚ := min (max x lo) hi

/-- The relaxation factor of `SpikeLayer.update_b` for a layer at depth
`i`: `clip(1 - (1 - 2 t / duration) * i / 50, 0, 1)`. -/
def relaxFactor (duration i t : ℚ) : ℚ :=
  clipQ (1 - (1 - 2 * t / duration) * i / 50) 0 1

/-- `SpikeLayer.update_b`: the bias is multiplied in place by the
relaxation factor of the current simulation time. -/
def update_b (duration i t bias : ℚ) : ℚ := bias * relaxFactor duration i t

/-- Repeated applications of `update_b` at the times listed in `ts`,
starting from the bias value `b0`. -/
def applyBiasUpdates (duration i b0 : ℚ) (ts : List ℚ) : ℚ :=
  ts.foldl (fun b t => update_b duration i t b) b0

/-- Simulator-level configuration consumed by
`SNN._get_timestep_at_spikecount`: the optional spike budget
`input/max_num_input_spikes`, the input mode flags, the reset policy,
the number of timesteps `duration/dt` and the batch size. -/
structure SimConfig where
  maxSpikecount : Option ℕ
  isAedat : Bool
  poisson : Bool
  reset : ResetKind
  numTimesteps : ℕ
  batchSize : ℕ
deriving DecidableEq

/-- Sum of `np.floor` over a batch tensor. -/
def floorSum (l : List ℚ) : ℤ := (l.map (fun a => ⌊a⌋)).sum

/-- Elementwise sum of two batch tensors (`x_accum += x`). -/
def zipAddQ (a b : List ℚ) : List ℚ := List.zipWith (· + ·) a b

/-- The `while True` loop of `SNN._get_timestep_at_spikecount`, indexed by
fuel: accumulate the input once per iteration, return `min t numTimesteps`
as soon as the floored accumulated sum exceeds the budget, and otherwise
keep iterating.  `none` means the fuel ran out with the loop still
running, i.e. the Python loop has not terminated within that many
iterations. -/
def spikecountLoop (x : List ℚ) (maxNorm : ℤ) (numTimesteps : ℕ) :
    List ℚ → ℕ → ℕ → Option ℕ
  | _, _, 0 => none
  | accum, t, fuel + 1 =>
      let accum := zipAddQ accum x
      if maxNorm < floorSum accum then some (min t numTimesteps)
      else spikecountLoop x maxNorm numTimesteps accum (t + 1) fuel

/-- `SNN._get_timestep_at_spikecount`: with no configured budget the full
step count is returned; with event-camera or Poisson input, or a reset
policy other than subtraction, the function also returns the full step
count unchanged (the `raise NotImplementedError` in the source is
commented out); otherwise the accumulation loop runs. -/
def getTimestepAtSpikecount (cfg : SimConfig) (x : List ℚ) (fuel : ℕ) :
    Option ℕ :=
  match cfg.maxSpikecount with
  | none => some cfg.numTimesteps
  | some budget =>
      if cfg.isAedat ∨ cfg.poisson ∨ cfg.reset ≠ ResetKind.subtraction then
        some cfg.numTimesteps
      else
        spikecountLoop x ((budget : ℤ) * (cfg.batchSize : ℤ))
          cfg.numTimesteps (x.map (fun _ => 0)) 0 fuel

/-- `np.sign` on rationals. -/
def qsign (a : ℚ) : ℚ := if 0 < a then 1 else if a < 0 then -1 else 0

/-- `np.max` over a batch tensor. -/
def batchMax : List ℚ → ℚ
  | [] => 0
  | a :: as => as.foldl max a

/-- One element of the Poisson frame generated by
`SNN.get_poisson_frame_batch` in the active branch: the Bernoulli
indicator `random * rescale_fac * max(x) ≤ |x_e|` scaled by
`max(x) * sign(x_e)`. -/
def poissonElement (maxX rescale rand xe : ℚ) : ℚ :=
  (if rand * rescale * maxX ≤ |xe| then 1 else 0) * (maxX * qsign xe)

/-- The Poisson frame over a batch, with the batch maximum fixed. -/
def poissonFrameAux (maxX rescale : ℚ) (x rands : List ℚ) : List ℚ :=
  List.zipWith (fun xe r => poissonElement maxX rescale r xe) x rands

/-- `SNN.get_poisson_frame_batch`: while the per-sample event budget is
not exhausted (or is negative, meaning unlimited), draw a Bernoulli frame
scaled by `max(x) * sign(x)`; afterwards emit all-zero frames. -/
def get_poisson_frame_batch (spikecount budget : ℤ) (x rands : List ℚ)
    (rescale : ℚ) : List ℚ :=
  if spikecount < budget ∨ budget < 0 then
    poissonFrameAux (batchMax x) rescale x rands
  else
    List.replicate x.length 0

/-- Configuration consumed by `SpikeLayer.reset_spikevars`, including
which optional buffers were allocated by `init_neurons`. -/
structure ResetConfig where
  resetBetweenNthSample : ℕ
  tau_refrac : ℚ
  dt : ℚ
  vThreshBase : ℚ
  online_normalization : Bool
  payloads : Bool
  hasSpiketrain : Bool
deriving DecidableEq

/-- The `do_reset` flag of `SpikeLayer.reset_spikevars`: the configured
modulus, with `0` replaced by `sample_idx + 1`, must divide `sample_idx`. -/
def doReset (cfg : ResetConfig) (sampleIdx : ℕ) : Bool :=
  let m := if cfg.resetBetweenNthSample = 0 then sampleIdx + 1
    else cfg.resetBetweenNthSample
  sampleIdx % m = 0

/-- `SpikeLayer.reset_spikevars` on the scalar per-neuron state: `mem`,
`mem_acc`, `mem_input`, `time` and the online-normalization variables are
reinitialized only when `do_reset` holds, while `refrac_until`, the
spiketrain record and the payload buffers are zeroed unconditionally
(whenever they are allocated). -/
def reset_spikevars (cfg : ResetConfig) (st : NState) (sampleIdx : ℕ) :
    NState :=
  let d := doReset cfg sampleIdx
  { mem := if d then 0 else st.mem
    memAcc := if d then 0 else st.memAcc
    memInput := if d then 0 else st.memInput
    time := if d then cfg.dt else st.time
    refracUntil := if cfg.tau_refrac > 0 then 0 else st.refracUntil
    spiketrain := if cfg.hasSpiketrain then 0 else st.spiketrain
    payload := if cfg.payloads then 0 else st.payload
    payloadSum := if cfg.payloads then 0 else st.payloadSum
    spikecount := if cfg.online_normalization ∧ d then 0 else st.spikecount
    maxSpikerate := if cfg.online_normalization ∧ d then 0
      else st.maxSpikerate
    vThresh := if cfg.online_normalization ∧ d then cfg.vThreshBase
      else st.vThresh }

/-- Cell configuration with payload relay enabled and subtraction reset,
used to exercise `update_payload`. -/
def payloadCfg : CellConfig := { rateCfg with payloads := true }

/-- The spike emitted by one `stepConst` step under `rateCfg`: threshold
1, fired iff the integrated membrane reaches 1. -/
theorem stepConst_rate_spike (st : NState) (a : ℚ) (k : ℕ)
    (hv : st.vThresh = 1) :
    (stepConst rateCfg a st k).1 = if 1 ≤ st.mem + a then (1 : ℚ) else 0 := by
  simp only [stepConst, update_neurons, get_new_mem, linear_activation,
    rateCfg, hv]
  norm_num

/-- The membrane left by one `stepConst` step under `rateCfg`:
subtraction reset after a spike, plain integration otherwise. -/
theorem stepConst_rate_mem (st : NState) (a : ℚ) (k : ℕ)
    (hv : st.vThresh = 1) :
    (stepConst rateCfg a st k).2.mem =
      if 1 ≤ st.mem + a then st.mem + a - 1 else st.mem + a := by
  simp only [stepConst, update_neurons, get_new_mem, linear_activation,
    set_reset_mem, rateCfg, hv]
  norm_num
  split_ifs with h1 h2 h3 <;> norm_num at *

/-- `stepConst` never touches the threshold variable. -/
theorem stepConst_rate_vthresh (st : NState) (a : ℚ) (k : ℕ) :
    (stepConst rateCfg a st k).2.vThresh = st.vThresh := by
  simp [stepConst, update_neurons]

/-- Closed form of the constant-input run under `rateCfg`: after `k`
steps the membrane holds the fractional part of `a * k` and exactly
`⌊a * k⌋` spikes have fired, for any constant input `0 ≤ a < 1`. -/
theorem runConst_rate_closed_form (a : ℚ) (h0 : 0 ≤ a) (h1 : a < 1) :
    ∀ k : ℕ,
      (runConst rateCfg a (initState rateCfg) k).1.mem =
        a * k - (⌊a * (k : ℚ)⌋ : ℚ) ∧
      (runConst rateCfg a (initState rateCfg) k).1.vThresh = 1 ∧
      (((runConst rateCfg a (initState rateCfg) k).2 : ℤ) =
        ⌊a * (k : ℚ)⌋) := by
  intro k
  induction k with
  | zero => simp [runConst, initState, rateCfg]
  | succ k ih =>
      obtain ⟨hmem, hvt, hcnt⟩ := ih
      have hfl : (⌊a * ((k : ℕ) : ℚ)⌋ : ℚ) ≤ a * k := Int.floor_le _
      have hfu : a * ((k : ℕ) : ℚ) < ⌊a * ((k : ℕ) : ℚ)⌋ + 1 :=
        Int.lt_floor_add_one _
      have hsplit : a * (((k : ℕ) : ℚ) + 1) = a * k + a := by ring
      simp only [runConst]
      rw [stepConst_rate_spike _ _ _ hvt, stepConst_rate_mem _ _ _ hvt,
        stepConst_rate_vthresh, hvt, hmem]
      push_cast
      by_cases hc : 1 ≤ a * ((k : ℕ) : ℚ) - (⌊a * ((k : ℕ) : ℚ)⌋ : ℚ) + a
      · have hnew : ⌊a * (((k : ℕ) : ℚ) + 1)⌋ = ⌊a * ((k : ℕ) : ℚ)⌋ + 1 := by
          rw [Int.floor_eq_iff]
          push_cast
          constructor <;> linarith [hsplit]
        simp only [if_pos hc, hnew]
        refine ⟨?_, trivial, ?_⟩
        · push_cast
          linarith [hsplit]
        · rw [if_neg (one_ne_zero : (1 : ℚ) ≠ 0)]
          rw [hcnt]
      · have hnew : ⌊a * (((k : ℕ) : ℚ) + 1)⌋ = ⌊a * ((k : ℕ) : ℚ)⌋ := by
          rw [Int.floor_eq_iff]
          constructor <;> linarith [hsplit]
        simp only [if_neg hc, hnew]
        refine ⟨?_, trivial, ?_⟩
        · linarith [hsplit]
        · simp only [if_true]
          rw [hcnt]
          ring

/-- C1: with threshold 1, dt 1, constant analog input 0.37 over 10 steps,
reset by subtraction and linear activation, the neuron emits exactly
`⌊0.37 * 10⌋ = 3` spikes; the embedded step function is a pure function,
so the count involves no randomness. -/
theorem claim1_deterministic_rate_coding :
    (runConst rateCfg (37/100) (initState rateCfg) 10).2 = 3 ∧
    (3 : ℤ) = ⌊(37/100 : ℚ) * 10⌋ := by
  have h := (runConst_rate_closed_form (37/100) (by norm_num)
    (by norm_num) 10).2.2
  have hfl : ⌊(37/100 : ℚ) * ((10 : ℕ) : ℚ)⌋ = 3 := by
    rw [Int.floor_eq_iff]
    norm_num
  rw [hfl] at h
  constructor
  · exact_mod_cast h
  · rw [show ((10 : ℕ) : ℚ) = 10 by norm_num] at hfl
    exact hfl.symm

/-- Rewriting of `get_new_thresh` without the `1 / dt` rate limit. -/
theorem get_new_thresh_eq (base dt m : ℚ) :
    get_new_thresh base dt m = base / 100 + (base - base / 100) * m * dt := by
  unfold get_new_thresh
  dsimp only
  rw [div_div_eq_mul_div, div_one]

/-- C2 (amended): the adaptive threshold produced by `get_new_thresh` from
the recorded `max_spikerate = count * dt / (k * dt)` stays in
`[base/100, base]` provided `0 ≤ base`, `0 < dt ≤ 1`, and the spike count
is between `0` and the number `k ≥ 1` of elapsed steps.  For `dt > 1` the
bound fails (see the counterexample). -/
theorem claim2_threshold_range (base dt count k : ℚ) (hbase : 0 ≤ base)
    (hdt0 : 0 < dt) (hdt1 : dt ≤ 1) (hk : 1 ≤ k) (hc0 : 0 ≤ count)
    (hck : count ≤ k) :
    base / 100 ≤ get_new_thresh base dt (count * dt / (k * dt)) ∧
    get_new_thresh base dt (count * dt / (k * dt)) ≤ base := by
  have hk0 : (0 : ℚ) < k := lt_of_lt_of_le one_pos hk
  have hmsr : count * dt / (k * dt) = count / k := by
    rw [mul_comm count dt, mul_comm k dt,
      mul_div_mul_left count k (ne_of_gt hdt0)]
  rw [get_new_thresh_eq base dt _, hmsr]
  have hA : 0 ≤ base - base / 100 := by linarith
  have hr0 : 0 ≤ count / k := div_nonneg hc0 hk0.le
  have hr1 : count / k ≤ 1 := (div_le_one hk0).mpr hck
  constructor
  · have : 0 ≤ (base - base / 100) * (count / k) * dt :=
      mul_nonneg (mul_nonneg hA hr0) hdt0.le
    linarith
  · have hprod : count / k * dt ≤ 1 := mul_le_one₀ hr1 hdt0.le hdt1
    have : (base - base / 100) * (count / k) * dt ≤ base - base / 100 := by
      rw [mul_assoc]
      exact mul_le_of_le_one_right hA hprod
    linarith

/-- Witness for the amended C2 bound at `base = 1`, `dt = 1/2`,
`count = 3`, `k = 4`. -/
theorem claim2_threshold_range_witness :
    1 / 100 ≤ get_new_thresh 1 (1/2) (3 * (1/2) / (4 * (1/2))) ∧
    get_new_thresh 1 (1/2) (3 * (1/2) / (4 * (1/2))) ≤ 1 :=
  claim2_threshold_range 1 (1/2) 3 4 (by norm_num) (by norm_num)
    (by norm_num) (by norm_num) (by norm_num) (by norm_num)

/-- Counterexample to C2 as stated: with `base = 1` and `dt = 2`, after a
first step (`k = 1`, `time = k * dt`) on which one spike fired
(`count = 1`), the adaptive threshold is `199/100`, outside
`[base/100, base]`. -/
theorem claim2_counterexample :
    get_new_thresh 1 2 (1 * 2 / (1 * 2)) = 199 / 100 ∧
    ¬ get_new_thresh 1 2 (1 * 2 / (1 * 2)) ≤ 1 := by
  norm_num [get_new_thresh]

/-- C3 (amended): with payload relay enabled, `update_neurons` computes
the residual `new_mem - threshold` at spiking positions (`new_mem`
elsewhere), sets the payload to `residual - payload_sum` at spiking
positions, and increments `payload_sum` by the payload value held
before the update (not by the newly computed payload). -/
theorem claim3_payload_update (cfg : CellConfig) (st : NState)
    (x impulse : ℚ) (hp : cfg.payloads = true) :
    (update_neurons cfg st x impulse).2.payload =
      (if (update_neurons cfg st x impulse).1 ≠ 0
        then (if (update_neurons cfg st x impulse).1 ≠ 0
                then (get_new_mem cfg st impulse).1 - cfg.vThreshBase
                else (get_new_mem cfg st impulse).1) - st.payloadSum
        else st.payload) ∧
    (update_neurons cfg st x impulse).2.payloadSum =
      (if (update_neurons cfg st x impulse).1 ≠ 0
        then st.payloadSum + st.payload else st.payloadSum) := by
  simp only [update_neurons, hp, update_payload, if_true]
  exact ⟨trivial, trivial⟩

/-- Witness for the amended C3 at a concrete spiking step: threshold 1,
fresh state, impulse `3/2`. -/
theorem claim3_payload_update_witness :
    (update_neurons payloadCfg (initState payloadCfg) (3/2) (3/2)).2.payload =
      (if (update_neurons payloadCfg (initState payloadCfg) (3/2) (3/2)).1 ≠ 0
        then (if (update_neurons payloadCfg (initState payloadCfg)
                    (3/2) (3/2)).1 ≠ 0
                then (get_new_mem payloadCfg (initState payloadCfg) (3/2)).1 -
                  payloadCfg.vThreshBase
                else (get_new_mem payloadCfg (initState payloadCfg) (3/2)).1) -
            (initState payloadCfg).payloadSum
        else (initState payloadCfg).payload) ∧
    (update_neurons payloadCfg (initState payloadCfg) (3/2) (3/2)).2.payloadSum =
      (if (update_neurons payloadCfg (initState payloadCfg) (3/2) (3/2)).1 ≠ 0
        then (initState payloadCfg).payloadSum + (initState payloadCfg).payload
        else (initState payloadCfg).payloadSum) :=
  claim3_payload_update payloadCfg (initState payloadCfg) (3/2) (3/2) rfl

/-- Sum of the per-step indicator records equals the number of steps with
a strictly positive spike value. -/
theorem recordStep_sum (l : List ℚ) :
    (l.map recordStep).sum = ((l.filter (fun s => 0 < s)).length : ℚ) := by
  induction l with
  | nil => simp
  | cons a l ih =>
      simp only [List.map_cons, List.sum_cons, List.filter_cons]
      by_cases h : 0 < a
      · simp [recordStep, h, ih]
        ring
      · simp [recordStep, h, ih]

/-- C4 (amended): after `k` steps the cumulative per-sample output tensor
of `SNN.simulate` equals, per output neuron, the number of steps among
`1..k` on which the final layer's spike value was strictly positive (the
loop stores the indicator `out_spikes > 0`, not the spike value itself). -/
theorem claim4_cumulative_output (outs : List ℚ) (k : ℕ) :
    cumOutputAt outs k =
      (((outs.take k).filter (fun s => 0 < s)).length : ℚ) := by
  unfold cumOutputAt
  exact recordStep_sum _

/-- Counterexample to C4 as stated: a single step on which the final
layer emits a spike of value `1/2` (threshold `1/2`) contributes `1` to
the cumulative tensor, not the spike value `1/2`: the cumulative tensor
is not the sum of the spike values. -/
theorem claim4_counterexample :
    cumOutputAt [1/2] 1 = 1 ∧ ([(1 : ℚ)/2].take 1).sum = 1/2 ∧
    cumOutputAt [1/2] 1 ≠ ([(1 : ℚ)/2].take 1).sum := by
  norm_num [cumOutputAt, recordStep]

/-- C5: assuming the per-class cumulative sums are nonnegative (they are
counts of indicator records), an all-zero sample is mapped to the
sentinel `-1`, which differs from every natural-number class label, and
any sample with a nonzero entry is mapped to the argmax of its sums. -/
theorem claim5_undecided_sentinel (sums : List ℚ)
    (h : ∀ x ∈ sums, 0 ≤ x) :
    ((∀ x ∈ sums, x = 0) → ∀ label : ℕ, cleanGuess sums ≠ (label : ℤ)) ∧
    ((∃ x ∈ sums, x ≠ 0) → cleanGuess sums = (argmaxList sums : ℤ)) := by
  constructor
  · intro hz label
    have hsum : sums.sum = 0 := List.sum_eq_zero hz
    unfold cleanGuess
    rw [if_pos hsum]
    omega
  · rintro ⟨x, hx, hxne⟩
    have hxpos : 0 < x := lt_of_le_of_ne (h x hx) (Ne.symm hxne)
    have hle : x ≤ sums.sum := List.single_le_sum h x hx
    have hsum : sums.sum ≠ 0 := ne_of_gt (lt_of_lt_of_le hxpos hle)
    unfold cleanGuess
    rw [if_neg hsum]

/-- Witness for C5: the all-zero two-class sample is sentinel-classified
and differs from the label `0`. -/
theorem claim5_undecided_sentinel_witness :
    cleanGuess [0, 0] ≠ ((0 : ℕ) : ℤ) :=
  (claim5_undecided_sentinel [0, 0] (by norm_num)).1 (by norm_num) 0

/-- C6 (amended): each application of `update_b` multiplies the current
bias by the clipped relaxation factor of the current time, so after
applications at times `ts` the bias equals the starting bias times the
product of the factors, not `bias0 * factor(t)` as a function of the last
time alone. -/
theorem claim6_bias_relaxation (duration i b0 : ℚ) (ts : List ℚ) :
    applyBiasUpdates duration i b0 ts =
      b0 * (ts.map (relaxFactor duration i)).prod := by
  induction ts generalizing b0 with
  | nil => simp [applyBiasUpdates]
  | cons t ts ih =>
      have hstep : applyBiasUpdates duration i b0 (t :: ts) =
          applyBiasUpdates duration i (update_b duration i t b0) ts := rfl
      rw [hstep, ih, List.map_cons, List.prod_cons]
      unfold update_b
      ring

/-- Counterexample to C6 as stated: for a layer at depth 25 with
`duration = 10` and `bias0 = 1`, applying the rule twice at `t = 1`
leaves the bias at `9/25`, while `bias0 * clip(…, 0, 1)` at `t = 1` is
`3/5`: the applied value is not a function of `t` alone. -/
theorem claim6_counterexample :
    applyBiasUpdates 10 25 1 [1, 1] = 9/25 ∧
    1 * relaxFactor 10 25 1 = 3/5 ∧
    applyBiasUpdates 10 25 1 [1, 1] ≠ 1 * relaxFactor 10 25 1 := by
  norm_num [applyBiasUpdates, update_b, relaxFactor, clipQ, min_def, max_def]

/-- Counterexample to C3 as stated: at a spiking step from a fresh state
with impulse `3/2`, the newly computed payload is `1/2`, yet the updated
`payload_sum` is `0`, not `payload_sum + 1/2`: the source adds the
pre-update payload variable, not the new one. -/
theorem claim3_counterexample :
    (update_neurons payloadCfg (initState payloadCfg) (3/2) (3/2)).1 ≠ 0 ∧
    (update_neurons payloadCfg (initState payloadCfg) (3/2) (3/2)).2.payload =
      1/2 ∧
    (update_neurons payloadCfg (initState payloadCfg) (3/2)
      (3/2)).2.payloadSum = 0 ∧
    (update_neurons payloadCfg (initState payloadCfg) (3/2)
        (3/2)).2.payloadSum ≠
      (initState payloadCfg).payloadSum +
        (update_neurons payloadCfg (initState payloadCfg) (3/2)
          (3/2)).2.payload := by
  norm_num [update_neurons, get_new_mem, linear_activation, set_reset_mem,
    update_payload, payloadCfg, rateCfg, initState]

/-- Spike-budget configuration with Poisson input: one of the
combinations the spec calls unsupported. -/
def budgetPoissonCfg : SimConfig :=
  { maxSpikecount := some 5
    isAedat := false
    poisson := true
    reset := ResetKind.subtraction
    numTimesteps := 8
    batchSize := 1 }

/-- Spike-budget configuration with event-camera input and a
non-subtraction reset. -/
def budgetAedatCfg : SimConfig :=
  { maxSpikecount := some 4
    isAedat := true
    poisson := false
    reset := ResetKind.toZero
    numTimesteps := 6
    batchSize := 2 }

/-- Spike-budget configuration in the supported combination (rate input,
subtraction reset), used with an all-zero batch. -/
def zeroBudgetCfg : SimConfig :=
  { maxSpikecount := some 5
    isAedat := false
    poisson := false
    reset := ResetKind.subtraction
    numTimesteps := 8
    batchSize := 1 }

/-- C7 (amended): a configured spike budget combined with event-camera or
Poisson input or a non-subtraction reset is silently ignored:
`_get_timestep_at_spikecount` returns the unchanged full step count and
raises no error (the `raise NotImplementedError` is commented out). -/
theorem claim7_silent_fallback (cfg : SimConfig) (x : List ℚ) (fuel b : ℕ)
    (hb : cfg.maxSpikecount = some b)
    (h : cfg.isAedat = true ∨ cfg.poisson = true ∨
      cfg.reset ≠ ResetKind.subtraction) :
    getTimestepAtSpikecount cfg x fuel = some cfg.numTimesteps := by
  unfold getTimestepAtSpikecount
  rw [hb]
  simp only [if_pos h]

/-- Witness for the amended C7: event-camera input plus zero-reset with a
budget of 4 returns the full 6 steps. -/
theorem claim7_silent_fallback_witness :
    getTimestepAtSpikecount budgetAedatCfg [2, 3] 7 =
      some budgetAedatCfg.numTimesteps :=
  claim7_silent_fallback budgetAedatCfg [2, 3] 7 4 rfl (Or.inl rfl)

/-- Counterexample to C7 as stated: with a spike budget of 5 and Poisson
input, the pre-run check returns the normal full step count `8` instead
of rejecting the configuration as a fatal error. -/
theorem claim7_counterexample :
    getTimestepAtSpikecount budgetPoissonCfg [1] 0 = some 8 := by
  unfold getTimestepAtSpikecount budgetPoissonCfg
  simp

/-- The spike-count loop makes no progress on the all-zero batch `[0]`:
the accumulated floored sum stays `0` and never exceeds a nonnegative
budget, for any amount of fuel. -/
theorem spikecountLoop_zero (maxNorm : ℤ) (hm : 0 ≤ maxNorm) (numT : ℕ) :
    ∀ fuel t, spikecountLoop [0] maxNorm numT [0] t fuel = none := by
  intro fuel
  induction fuel with
  | zero => intro t; rfl
  | succ fuel ih =>
      intro t
      have hz : zipAddQ [0] [0] = [0] := by
        simp [zipAddQ]
      have hfs : floorSum [0] = 0 := by
        simp [floorSum]
      simp only [spikecountLoop, hz, hfs]
      rw [if_neg (by omega : ¬ maxNorm < 0)]
      exact ih (t + 1)

/-- C8: on an all-zero input batch with a configured spike budget (in the
supported rate-coded, subtraction-reset combination) the `while True`
loop of `_get_timestep_at_spikecount` never returns, whatever fuel it is
given — the Python code does not terminate, contrary to the claim. -/
theorem claim8_zero_batch_diverges (fuel : ℕ) :
    getTimestepAtSpikecount zeroBudgetCfg [0] fuel = none := by
  unfold getTimestepAtSpikecount zeroBudgetCfg
  simp only [List.map]
  rw [if_neg (by simp)]
  exact spikecountLoop_zero _ (by norm_num) _ fuel 0

/-- Each element of the active-branch Poisson frame is `poissonElement`
of the matching input element and some random draw. -/
theorem mem_zip_frameAux (maxX rescale : ℚ) :
    ∀ (x rands : List ℚ) (p : ℚ × ℚ),
      p ∈ List.zip x (poissonFrameAux maxX rescale x rands) →
      ∃ r : ℚ, p.2 = poissonElement maxX rescale r p.1 := by
  intro x
  induction x with
  | nil =>
      intro rands p hp
      simp [poissonFrameAux] at hp
  | cons a x ih =>
      intro rands p hp
      cases rands with
      | nil => simp [poissonFrameAux] at hp
      | cons r rands =>
          simp only [poissonFrameAux, List.zipWith_cons_cons,
            List.zip_cons_cons, List.mem_cons] at hp
          rcases hp with rfl | hp
          · exact ⟨r, rfl⟩
          · exact ih rands p hp

/-- Elements zipped against an all-zero frame are zero in the second
component. -/
theorem mem_zip_replicate_zero :
    ∀ (x : List ℚ) (n : ℕ) (p : ℚ × ℚ),
      p ∈ List.zip x (List.replicate n (0 : ℚ)) → p.2 = 0 := by
  intro x
  induction x with
  | nil => intro n p hp; simp at hp
  | cons a x ih =>
      intro n p hp
      cases n with
      | zero => simp at hp
      | succ n =>
          simp only [List.replicate, List.zip_cons_cons,
            List.mem_cons] at hp
          rcases hp with rfl | hp
          · rfl
          · exact ih n p hp

/-- Pointwise behaviour of one Poisson frame element: when nonzero it
equals `max(x) * sign(x_e)` and has magnitude `|max(x)|`, and a zero
input element never produces a spike. -/
theorem poissonElement_spec (maxX rescale rand xe : ℚ) :
    (poissonElement maxX rescale rand xe ≠ 0 →
      poissonElement maxX rescale rand xe = maxX * qsign xe ∧
      |poissonElement maxX rescale rand xe| = |maxX|) ∧
    (xe = 0 → poissonElement maxX rescale rand xe = 0) := by
  constructor
  · intro hne
    unfold poissonElement at hne ⊢
    by_cases hi : rand * rescale * maxX ≤ |xe|
    · rw [if_pos hi, one_mul] at hne ⊢
      refine ⟨rfl, ?_⟩
      unfold qsign at hne ⊢
      by_cases h1 : 0 < xe
      · rw [if_pos h1] at hne ⊢
        rw [mul_one]
      · rw [if_neg h1] at hne ⊢
        by_cases h2 : xe < 0
        · rw [if_pos h2] at hne ⊢
          rw [abs_mul]
          norm_num
        · rw [if_neg h2] at hne
          simp at hne
    · rw [if_neg hi, zero_mul] at hne
      exact absurd rfl hne
  · intro hz
    unfold poissonElement qsign
    rw [hz]
    norm_num

/-- C9 (amended): every element of the frame produced by
`get_poisson_frame_batch`, paired with its input element, satisfies: a
nonzero frame element equals `max(x) * sign(x_e)` and has magnitude
`|max(x)|` (not `max(x)`, which can be negative), and a zero input
element never emits a spike. -/
theorem claim9_poisson_frame (spikecount budget : ℤ) (x rands : List ℚ)
    (rescale : ℚ) (p : ℚ × ℚ)
    (hp : p ∈ List.zip x
      (get_poisson_frame_batch spikecount budget x rands rescale)) :
    (p.2 ≠ 0 → p.2 = batchMax x * qsign p.1 ∧ |p.2| = |batchMax x|) ∧
    (p.1 = 0 → p.2 = 0) := by
  unfold get_poisson_frame_batch at hp
  by_cases hb : spikecount < budget ∨ budget < 0
  · rw [if_pos hb] at hp
    obtain ⟨r, hr⟩ := mem_zip_frameAux (batchMax x) rescale x rands p hp
    rw [hr]
    exact poissonElement_spec (batchMax x) rescale r p.1
  · rw [if_neg hb] at hp
    have h2 := mem_zip_replicate_zero x x.length p hp
    exact ⟨fun hne => absurd h2 hne, fun _ => h2⟩

/-- Witness for the amended C9 at the batch `[3]` with one random draw
`1/2` and rescale factor 1: the emitted pair is `(3, 3)`. -/
theorem claim9_poisson_frame_witness :
    ((((3 : ℚ), (3 : ℚ)).2 ≠ 0 →
      ((3 : ℚ), (3 : ℚ)).2 = batchMax [3] * qsign ((3 : ℚ), (3 : ℚ)).1 ∧
      |((3 : ℚ), (3 : ℚ)).2| = |batchMax [3]|) ∧
    (((3 : ℚ), (3 : ℚ)).1 = 0 → ((3 : ℚ), (3 : ℚ)).2 = 0)) :=
  claim9_poisson_frame 0 5 [3] [1/2] 1 (3, 3)
    (by norm_num [get_poisson_frame_batch, poissonFrameAux, poissonElement,
      qsign, batchMax])

/-- Counterexample to C9 as stated: for the all-negative batch
`[-2, -1]`, `max(x) = -1`, and the first frame element is the nonzero
spike `1`, whose magnitude `1` is not `max(x)`. -/
theorem claim9_counterexample :
    (get_poisson_frame_batch 0 5 [-2, -1] [1/2, 1/2] 1).headD 0 = 1 ∧
    batchMax [-2, -1] = -1 ∧
    |(get_poisson_frame_batch 0 5 [-2, -1] [1/2, 1/2] 1).headD 0| ≠
      batchMax [-2, -1] := by
  norm_num [get_poisson_frame_batch, poissonFrameAux, poissonElement,
    qsign, batchMax, max_def]

/-- A reset configuration whose modulus 2 skips the reset for odd sample
indices, with all optional buffers allocated. -/
def noResetCfg : ResetConfig :=
  { resetBetweenNthSample := 2
    tau_refrac := 1
    dt := 1
    vThreshBase := 1
    online_normalization := true
    payloads := true
    hasSpiketrain := true }

/-- A probe state with pairwise different field values. -/
def probeState : NState :=
  { mem := 5
    memAcc := 6
    memInput := 7
    refracUntil := 8
    time := 9
    vThresh := 10
    payload := 11
    payloadSum := 12
    spikecount := 13
    maxSpikerate := 14
    spiketrain := 15 }

/-- C10: when the reset modulus indicates no reset for the sample,
`reset_spikevars` still zeroes `refrac_until`, the spiketrain record and
both payload buffers (given those buffers are allocated), and leaves
`mem`, `mem_acc`, `mem_input`, `time`, `spikecounts`, `max_spikerate` and
`v_thresh` unchanged. -/
theorem claim10_no_reset_frame (cfg : ResetConfig) (st : NState)
    (sampleIdx : ℕ) (hmod : doReset cfg sampleIdx = false)
    (htau : 0 < cfg.tau_refrac) (hst : cfg.hasSpiketrain = true)
    (hp : cfg.payloads = true) :
    (reset_spikevars cfg st sampleIdx).refracUntil = 0 ∧
    (reset_spikevars cfg st sampleIdx).spiketrain = 0 ∧
    (reset_spikevars cfg st sampleIdx).payload = 0 ∧
    (reset_spikevars cfg st sampleIdx).payloadSum = 0 ∧
    (reset_spikevars cfg st sampleIdx).mem = st.mem ∧
    (reset_spikevars cfg st sampleIdx).memAcc = st.memAcc ∧
    (reset_spikevars cfg st sampleIdx).memInput = st.memInput ∧
    (reset_spikevars cfg st sampleIdx).time = st.time ∧
    (reset_spikevars cfg st sampleIdx).spikecount = st.spikecount ∧
    (reset_spikevars cfg st sampleIdx).maxSpikerate = st.maxSpikerate ∧
    (reset_spikevars cfg st sampleIdx).vThresh = st.vThresh := by
  simp [reset_spikevars, hmod, htau, hst, hp]

/-- Witness for C10 at sample index 1 with modulus 2 and the probe
state. -/
theorem claim10_no_reset_frame_witness :
    (reset_spikevars noResetCfg probeState 1).refracUntil = 0 ∧
    (reset_spikevars noResetCfg probeState 1).spiketrain = 0 ∧
    (reset_spikevars noResetCfg probeState 1).payload = 0 ∧
    (reset_spikevars noResetCfg probeState 1).payloadSum = 0 ∧
    (reset_spikevars noResetCfg probeState 1).mem = probeState.mem ∧
    (reset_spikevars noResetCfg probeState 1).memAcc = probeState.memAcc ∧
    (reset_spikevars noResetCfg probeState 1).memInput =
      probeState.memInput ∧
    (reset_spikevars noResetCfg probeState 1).time = probeState.time ∧
    (reset_spikevars noResetCfg probeState 1).spikecount =
      probeState.spikecount ∧
    (reset_spikevars noResetCfg probeState 1).maxSpikerate =
      probeState.maxSpikerate ∧
    (reset_spikevars noResetCfg probeState 1).vThresh =
      probeState.vThresh :=
  claim10_no_reset_frame noResetCfg probeState 1 rfl
    (by norm_num [noResetCfg]) rfl rfl

end SNNToolbox
